import Mathlib

/-!
# Verification of the AIR-BRAIN scaling components

Shallow embedding of the three core classes of `src/scaling_examples.py`:
`CachingLayer` (a FIFO-eviction prediction cache), `BatchProcessor`
(a synchronous batching queue) and `AutoScaler` (a threshold scale
decision function), together with proofs of the specification's claims
about them.

Modelling conventions:
* Python `dict`s are insertion-ordered association lists (`List (String × α)`);
  the head is the oldest entry, matching `next(iter(d))`.
* Python `int` is `Int`, Python `float`/`time.time()` values are `ℚ`.
* The externally supplied model object (`self.model`) is immutable after
  construction, so it is threaded as an explicit function argument instead
  of a record field; likewise `hashlib.md5(...).hexdigest()` is an external
  digest, threaded as an opaque function `String → String`.
* `time.time()` is an explicit `now : ℚ` argument at each call that reads
  the clock.
* Code that can raise (`next(iter({}))` raising `StopIteration`) returns
  `Option`.
-/

namespace AirBrain

/-- Ordering on the `(key, value)` items of a feature dict, as Python's
`sorted` compares tuples: lexicographically, key first, then value. -/
def itemLe {V : Type} [LinearOrder V] (a b : String × V) : Prop :=
  a.1 < b.1 ∨ (a.1 = b.1 ∧ a.2 ≤ b.2)

instance {V : Type} [LinearOrder V] : DecidableRel (@itemLe V _) := fun a b => by
  unfold itemLe; exact inferInstance

instance {V : Type} [LinearOrder V] : IsTotal (String × V) (@itemLe V _) := by
  constructor
  intro a b
  rcases lt_trichotomy a.1 b.1 with h | h | h
  · exact Or.inl (Or.inl h)
  · rcases le_total a.2 b.2 with h2 | h2
    · exact Or.inl (Or.inr ⟨h, h2⟩)
    · exact Or.inr (Or.inr ⟨h.symm, h2⟩)
  · exact Or.inr (Or.inl h)

instance {V : Type} [LinearOrder V] : IsTrans (String × V) (@itemLe V _) := by
  constructor
  intro a b c hab hbc
  rcases hab with h1 | ⟨h1, h1'⟩
  · rcases hbc with h2 | ⟨h2, _⟩
    · exact Or.inl (h1.trans h2)
    · exact Or.inl (h2 ▸ h1)
  · rcases hbc with h2 | ⟨h2, h2'⟩
    · exact Or.inl (h1 ▸ h2)
    · exact Or.inr ⟨h1.trans h2, h1'.trans h2'⟩

instance {V : Type} [LinearOrder V] : IsAntisymm (String × V) (@itemLe V _) := by
  constructor
  intro a b hab hba
  rcases hab with h1 | ⟨h1, h1'⟩
  · rcases hba with h2 | ⟨h2, _⟩
    · exact absurd (h1.trans h2) (lt_irrefl _)
    · exact absurd h1 (h2 ▸ lt_irrefl _)
  · rcases hba with h2 | ⟨_, h2'⟩
    · exact absurd h2 (h1 ▸ lt_irrefl _)
    · exact Prod.ext h1 (le_antisymm h1' h2')

/-- `CachingLayer._hash_features`:
`feature_str = str(sorted(features.items()))` followed by
`hashlib.md5(feature_str.encode()).hexdigest()`.  The md5 digest of the
canonical serialization is an external library call, abstracted as the
function `md5`. -/
def hashFeatures {V : Type} [LinearOrder V] [ToString V]
    (md5 : String → String) (features : List (String × V)) : String :=
  md5 (toString (List.insertionSort itemLe features))

/-- Python `key in d` / `d[key]` on an association-list dict: first binding
of the key, if any. -/
def lookupKey {α : Type} (k : String) : List (String × α) → Option α
  | [] => none
  | (k', v) :: rest => if k == k' then some v else lookupKey k rest

/-- Python `d.get(key, default)`. -/
def dictGet {α : Type} (m : List (String × α)) (k : String) (d : α) : α :=
  (lookupKey k m).getD d

/-- State of `CachingLayer` (the stored `self.model` is threaded separately
as a function since it is never mutated): `self.cache` is an
insertion-ordered dict from fingerprint to result, `self.cache_size` the
configured capacity, plus the hit and miss counters. -/
structure CachingLayer (R : Type) where
  cache : List (String × R)
  cache_size : Int
  hits : Nat
  misses : Nat
deriving DecidableEq

/-- `CachingLayer.__init__`: empty cache, zero counters.  No validation is
performed on `cache_size`. -/
def CachingLayer.init {R : Type} (cache_size : Int) : CachingLayer R :=
  { cache := [], cache_size := cache_size, hits := 0, misses := 0 }

/-- `CachingLayer.predict`: compute the fingerprint; on a hit increment
`self.hits` and return the cached result; on a miss increment
`self.misses`, compute the backend result, evict the oldest entry when
`len(self.cache) >= self.cache_size` (dropping the head of the
insertion-ordered dict; `next(iter({}))` on an empty dict raises
`StopIteration`, modelled as `none`), and append the new entry. -/
def CachingLayer.predict {V R : Type} [LinearOrder V] [ToString V]
    (md5 : String → String) (model : List (String × V) → R)
    (s : CachingLayer R) (features : List (String × V)) :
    Option (R × CachingLayer R) :=
  let cache_key := hashFeatures md5 features
  match lookupKey cache_key s.cache with
  | some result => some (result, { s with hits := s.hits + 1 })
  | none =>
    let result := model features
    if (s.cache.length : Int) ≥ s.cache_size then
      match s.cache with
      | [] => none
      | _ :: rest =>
        some (result,
          { s with misses := s.misses + 1,
                   cache := rest ++ [(cache_key, result)] })
    else
      some (result,
        { s with misses := s.misses + 1,
                 cache := s.cache ++ [(cache_key, result)] })

/-- Result of `CachingLayer.get_cache_stats`. -/
structure CacheStats where
  cache_size : Nat
  hits : Nat
  misses : Nat
  hit_rate : ℚ
deriving DecidableEq

/-- `CachingLayer.get_cache_stats`:
`hit_rate = self.hits / total if total > 0 else 0`. -/
def CachingLayer.get_cache_stats {R : Type} (s : CachingLayer R) : CacheStats :=
  let total := s.hits + s.misses
  { cache_size := s.cache.length
    hits := s.hits
    misses := s.misses
    hit_rate := if 0 < total then (s.hits : ℚ) / (total : ℚ) else 0 }

/-- A sequence of `predict` calls, propagating the `StopIteration` failure
of the eviction path. -/
def runPredicts {V R : Type} [LinearOrder V] [ToString V]
    (md5 : String → String) (model : List (String × V) → R) :
    CachingLayer R → List (List (String × V)) → Option (CachingLayer R)
  | s, [] => some s
  | s, f :: fs =>
    match s.predict md5 model f with
    | none => none
    | some (_, s') => runPredicts md5 model s' fs

/-- The fingerprints held in the cache after a run, oldest first. -/
def runCacheKeys {V R : Type} [LinearOrder V] [ToString V]
    (md5 : String → String) (model : List (String × V) → R)
    (s : CachingLayer R) (fs : List (List (String × V))) : Option (List String) :=
  (runPredicts md5 model s fs).map (fun t => t.cache.map Prod.fst)

/-- The insertion-event trace of a run: replaying the same `predict`
calls, the fingerprint is appended once for each cache miss — the only
path on which the source executes `self.cache[cache_key] = result` — and
nothing is recorded on a hit.  Duplicates may occur (a key evicted and
later missed again is re-inserted), and hits leave the trace unchanged. -/
def insertionTrace {V R : Type} [LinearOrder V] [ToString V]
    (md5 : String → String) (model : List (String × V) → R) :
    CachingLayer R → List (List (String × V)) → Option (List String)
  | _, [] => some []
  | s, f :: fs =>
    match s.predict md5 model f with
    | none => none
    | some (_, s') =>
      (insertionTrace md5 model s' fs).map (fun E =>
        if (lookupKey (hashFeatures md5 f) s.cache).isSome then E
        else hashFeatures md5 f :: E)

/-- Python list slicing `l[:n]` for a possibly negative `n` (a negative
index counts from the end, clamped at zero). -/
def pySliceTake {F : Type} (l : List F) (n : Int) : List F :=
  l.take (if 0 ≤ n then n.toNat else l.length - (-n).toNat)

/-- Python list slicing `l[n:]` for a possibly negative `n`. -/
def pySliceDrop {F : Type} (l : List F) (n : Int) : List F :=
  l.drop (if 0 ≤ n then n.toNat else l.length - (-n).toNat)

/-- State of `BatchProcessor` (the stored `self.model` is external and
never consulted by the queueing logic modelled here): the configured
`self.batch_size` and `self.max_wait_time`, the pending `self.batch_queue`,
and `self.last_batch_time`, which `__init__` sets to the construction time
and `_process_batch` resets to the flush time. -/
structure BatchProcessor (F : Type) where
  batch_size : Int
  max_wait_time : ℚ
  batch_queue : List F
  last_batch_time : ℚ
deriving DecidableEq

/-- `BatchProcessor.__init__` at clock reading `now` (`time.time()`):
empty queue, `last_batch_time = now`.  No validation is performed on
`batch_size` or `max_wait_time`. -/
def BatchProcessor.init {F : Type} (batch_size : Int) (max_wait_time : ℚ)
    (now : ℚ) : BatchProcessor F :=
  { batch_size := batch_size, max_wait_time := max_wait_time,
    batch_queue := [], last_batch_time := now }

/-- `BatchProcessor._process_batch`: return early if the queue is empty;
otherwise remove the first `batch_size` queued items, hand them to the
backend (external, so the drained batch is returned to the caller), and
set `last_batch_time` to the current time. -/
def BatchProcessor.process_batch {F : Type} (now : ℚ) (s : BatchProcessor F) :
    BatchProcessor F × Option (List F) :=
  if s.batch_queue.isEmpty then (s, none)
  else
    let batch := pySliceTake s.batch_queue s.batch_size
    ({ s with batch_queue := pySliceDrop s.batch_queue s.batch_size,
              last_batch_time := now },
     some batch)

/-- `BatchProcessor.add_request` at clock reading `now`: append the item,
then synchronously flush via `_process_batch` when
`len(self.batch_queue) >= self.batch_size` or
`time.time() - self.last_batch_time >= self.max_wait_time`
(and the queue is non-empty).  The second component reports the flushed
batch, if any. -/
def BatchProcessor.add_request {F : Type} (now : ℚ) (s : BatchProcessor F)
    (features : F) : BatchProcessor F × Option (List F) :=
  let s1 := { s with batch_queue := s.batch_queue ++ [features] }
  if (s1.batch_queue.length : Int) ≥ s1.batch_size ∨
      now - s1.last_batch_time ≥ s1.max_wait_time then
    if s1.batch_queue.isEmpty then (s1, none) else s1.process_batch now
  else (s1, none)

/-- State of `AutoScaler`: bounds, thresholds (all set at construction)
and the mutable `self.current_instances`. -/
structure AutoScaler where
  min_instances : Int
  max_instances : Int
  target_cpu : ℚ
  scale_up_threshold : ℚ
  scale_down_threshold : ℚ
  current_instances : Int
deriving DecidableEq

/-- `AutoScaler.__init__`: stores the five parameters and starts with
`current_instances = min_instances`.  No validation is performed (in
particular `min_instances > max_instances` is accepted). -/
def AutoScaler.init (min_instances max_instances : Int)
    (target_cpu scale_up_threshold scale_down_threshold : ℚ) : AutoScaler :=
  { min_instances := min_instances, max_instances := max_instances,
    target_cpu := target_cpu, scale_up_threshold := scale_up_threshold,
    scale_down_threshold := scale_down_threshold,
    current_instances := min_instances }

/-- `AutoScaler.should_scale`: read the three metrics with
`metrics.get(key, 0)`; scale up by one (clamped to `max_instances`,
returning `1`) when `cpu_usage > scale_up_threshold` or
`avg_latency > 1000` or `request_rate > 100` and the count is below the
maximum; otherwise (`elif`) scale down by one (clamped to
`min_instances`, returning `-1`) when `cpu_usage < scale_down_threshold`
and `avg_latency < 100` and `request_rate < 10` and the count is above
the minimum; otherwise return `0`. -/
def AutoScaler.should_scale (s : AutoScaler) (metrics : List (String × ℚ)) :
    Int × AutoScaler :=
  let cpu_usage := dictGet metrics "cpu_usage" 0
  let request_rate := dictGet metrics "request_rate" 0
  let avg_latency := dictGet metrics "avg_latency_ms" 0
  if cpu_usage > s.scale_up_threshold ∨ avg_latency > 1000 ∨
      request_rate > 100 then
    if s.current_instances < s.max_instances then
      let new_instances := min (s.current_instances + 1) s.max_instances
      (1, { s with current_instances := new_instances })
    else (0, s)
  else if cpu_usage < s.scale_down_threshold ∧ avg_latency < 100 ∧
      request_rate < 10 then
    if s.current_instances > s.min_instances then
      let new_instances := max (s.current_instances - 1) s.min_instances
      (-1, { s with current_instances := new_instances })
    else (0, s)
  else (0, s)

/-- A sequence of `should_scale` calls, keeping the final state. -/
def runScale (s : AutoScaler) : List (List (String × ℚ)) → AutoScaler
  | [] => s
  | m :: ms => runScale (s.should_scale m).2 ms

/-- Modelled from the spec: the flush predicate the specification states
for the batcher — "a batch flushes when either `len(items) == batch_size`
or `now - opened_at >= max_wait_time`", with "`opened_at`: timestamp of
first item's admission".  The source (`BatchProcessor.add_request`) has no
`opened_at`; it compares against `last_batch_time`, the time of the last
flush or of construction.  This definition follows the spec's words, for
comparison with the source behaviour. -/
def specShouldFlush (queue_len : Nat) (batch_size : Int)
    (now opened_at max_wait_time : ℚ) : Prop :=
  (queue_len : Int) ≥ batch_size ∨ now - opened_at ≥ max_wait_time

instance (queue_len : Nat) (batch_size : Int) (now opened_at max_wait_time : ℚ) :
    Decidable (specShouldFlush queue_len batch_size now opened_at max_wait_time) := by
  unfold specShouldFlush; exact inferInstance

/-- Modelled from the spec: the error taxonomy entry
"`InvalidConfiguration`: non-positive batch size, non-positive cache
capacity, or `min_instances > max_instances` — fail fast at construction."
No such error exists in the source. -/
inductive ConfigError where
  | invalidConfiguration
deriving DecidableEq

/-- Modelled from the spec: a `CachingLayer` constructor that fails fast on
a non-positive cache capacity, as the spec's error taxonomy demands.  The
source constructor performs no such check. -/
def checkedCachingLayerInit (R : Type) (cache_size : Int) :
    Except ConfigError (CachingLayer R) :=
  if cache_size ≤ 0 then Except.error ConfigError.invalidConfiguration
  else Except.ok (CachingLayer.init cache_size)

/-- Modelled from the spec: a `BatchProcessor` constructor that fails fast
on a non-positive batch size.  The source constructor performs no such
check. -/
def checkedBatchProcessorInit (F : Type) (batch_size : Int)
    (max_wait_time now : ℚ) : Except ConfigError (BatchProcessor F) :=
  if batch_size ≤ 0 then Except.error ConfigError.invalidConfiguration
  else Except.ok (BatchProcessor.init batch_size max_wait_time now)

/-- Modelled from the spec: an `AutoScaler` constructor that fails fast
when `min_instances > max_instances`.  The source constructor performs no
such check. -/
def checkedAutoScalerInit (min_instances max_instances : Int)
    (target_cpu scale_up_threshold scale_down_threshold : ℚ) :
    Except ConfigError AutoScaler :=
  if min_instances > max_instances then
    Except.error ConfigError.invalidConfiguration
  else
    Except.ok (AutoScaler.init min_instances max_instances target_cpu
      scale_up_threshold scale_down_threshold)

theorem lookupKey_eq_none {α : Type} {k : String} :
    ∀ {l : List (String × α)}, lookupKey k l = none ↔ k ∉ l.map Prod.fst := by
  intro l
  induction l with
  | nil => simp [lookupKey]
  | cons p rest ih =>
    obtain ⟨k', v⟩ := p
    by_cases h : k = k' <;> simp [lookupKey, h, ih]

theorem predict_hit {V R : Type} [LinearOrder V] [ToString V]
    (md5 : String → String) (model : List (String × V) → R)
    (s : CachingLayer R) (f : List (String × V)) (r : R)
    (h : lookupKey (hashFeatures md5 f) s.cache = some r) :
    s.predict md5 model f = some (r, { s with hits := s.hits + 1 }) := by
  simp only [CachingLayer.predict, h]

theorem predict_miss_evict {V R : Type} [LinearOrder V] [ToString V]
    (md5 : String → String) (model : List (String × V) → R)
    (s : CachingLayer R) (f : List (String × V)) (p : String × R)
    (rest : List (String × R))
    (h : lookupKey (hashFeatures md5 f) s.cache = none)
    (hge : (s.cache.length : Int) ≥ s.cache_size)
    (hc : s.cache = p :: rest) :
    s.predict md5 model f = some (model f,
      { s with misses := s.misses + 1,
               cache := rest ++ [(hashFeatures md5 f, model f)] }) := by
  have hge' : (((p :: rest).length : Int) ≥ s.cache_size) := by
    rw [← hc]; exact hge
  simp only [CachingLayer.predict, h]
  rw [hc, if_pos hge']

theorem predict_miss_noevict {V R : Type} [LinearOrder V] [ToString V]
    (md5 : String → String) (model : List (String × V) → R)
    (s : CachingLayer R) (f : List (String × V))
    (h : lookupKey (hashFeatures md5 f) s.cache = none)
    (hlt : ¬ (s.cache.length : Int) ≥ s.cache_size) :
    s.predict md5 model f = some (model f,
      { s with misses := s.misses + 1,
               cache := s.cache ++ [(hashFeatures md5 f, model f)] }) := by
  simp only [CachingLayer.predict, h, if_neg hlt]

theorem predict_miss_stopiteration {V R : Type} [LinearOrder V] [ToString V]
    (md5 : String → String) (model : List (String × V) → R)
    (s : CachingLayer R) (f : List (String × V))
    (h : lookupKey (hashFeatures md5 f) s.cache = none)
    (hge : (s.cache.length : Int) ≥ s.cache_size)
    (hc : s.cache = []) :
    s.predict md5 model f = none := by
  have hge' : ((([] : List (String × R)).length : Int) ≥ s.cache_size) := by
    rw [← hc]; exact hge
  simp only [CachingLayer.predict, h]
  rw [hc, if_pos hge']

theorem predict_effects {V R : Type} [LinearOrder V] [ToString V]
    (md5 : String → String) (model : List (String × V) → R)
    (s : CachingLayer R) (f : List (String × V)) (r : R) (s' : CachingLayer R)
    (h : s.predict md5 model f = some (r, s')) :
    s'.hits + s'.misses = s.hits + s.misses + 1 ∧
      s'.cache_size = s.cache_size := by
  rcases hl : lookupKey (hashFeatures md5 f) s.cache with _ | r0
  · by_cases hge : (s.cache.length : Int) ≥ s.cache_size
    · rcases hc : s.cache with _ | ⟨p, rest⟩
      · rw [predict_miss_stopiteration md5 model s f hl hge hc] at h
        exact absurd h (by simp)
      · rw [predict_miss_evict md5 model s f p rest hl hge hc] at h
        simp only [Option.some.injEq, Prod.mk.injEq] at h
        obtain ⟨-, h2⟩ := h
        subst h2
        dsimp only
        omega
    · rw [predict_miss_noevict md5 model s f hl hge] at h
      simp only [Option.some.injEq, Prod.mk.injEq] at h
      obtain ⟨-, h2⟩ := h
      subst h2
      dsimp only
      omega
  · rw [predict_hit md5 model s f r0 hl] at h
    simp only [Option.some.injEq, Prod.mk.injEq] at h
    obtain ⟨-, h2⟩ := h
    subst h2
    dsimp only
    omega

theorem predict_inv {V R : Type} [LinearOrder V] [ToString V]
    (md5 : String → String) (model : List (String × V) → R)
    (C : Nat) (hC : 1 ≤ C)
    (s : CachingLayer R) (hsz : s.cache_size = (C : Int))
    (hlen : s.cache.length ≤ C) (hnd : (s.cache.map Prod.fst).Nodup)
    (f : List (String × V)) :
    ∃ r s', s.predict md5 model f = some (r, s') ∧
      s'.cache_size = (C : Int) ∧ s'.cache.length ≤ C ∧
      (s'.cache.map Prod.fst).Nodup := by
  rcases hl : lookupKey (hashFeatures md5 f) s.cache with _ | r0
  · have hnotin : hashFeatures md5 f ∉ s.cache.map Prod.fst :=
      lookupKey_eq_none.mp hl
    by_cases hge : (s.cache.length : Int) ≥ s.cache_size
    · have hlenC : s.cache.length = C := by
        have h1 : (C : Int) ≤ (s.cache.length : Int) := by rw [← hsz]; exact hge
        omega
      obtain ⟨p, rest, hc⟩ : ∃ p rest, s.cache = p :: rest := by
        cases hcc : s.cache with
        | nil => rw [hcc] at hlenC; simp at hlenC; omega
        | cons p rest => exact ⟨p, rest, rfl⟩
      refine ⟨model f, _, predict_miss_evict md5 model s f p rest hl hge hc,
        by simpa using hsz, ?_, ?_⟩
      · have : rest.length + 1 = C := by rw [hc] at hlenC; simpa using hlenC
        simp only [List.length_append, List.length_cons, List.length_nil]
        omega
      · rw [hc] at hnd hnotin
        simp only [List.map_cons, List.nodup_cons] at hnd
        simp only [List.map_cons, List.mem_cons, not_or] at hnotin
        simp only [List.map_append, List.map_cons, List.map_nil,
          List.nodup_append, List.nodup_cons, List.nodup_nil,
          List.Disjoint]
        refine ⟨hnd.2, by simp, ?_⟩
        intro a ha hb
        simp only [List.mem_singleton] at hb
        subst hb
        exact hnotin.2 ha
    · refine ⟨model f, _, predict_miss_noevict md5 model s f hl hge,
        by simpa using hsz, ?_, ?_⟩
      · have h1 : ¬ ((C : Int) ≤ (s.cache.length : Int)) := by
          rw [← hsz]; exact hge
        simp only [List.length_append, List.length_cons, List.length_nil]
        omega
      · simp only [List.map_append, List.map_cons, List.map_nil,
          List.nodup_append, List.nodup_cons, List.nodup_nil, List.Disjoint]
        refine ⟨hnd, by simp, ?_⟩
        intro a ha hb
        simp only [List.mem_singleton] at hb
        subst hb
        exact hnotin ha
  · exact ⟨r0, _, predict_hit md5 model s f r0 hl,
      by simpa using hsz, by simpa using hlen, by simpa using hnd⟩

theorem runPredicts_inv {V R : Type} [LinearOrder V] [ToString V]
    (md5 : String → String) (model : List (String × V) → R)
    (C : Nat) (hC : 1 ≤ C) :
    ∀ (ops : List (List (String × V))) (s : CachingLayer R),
      s.cache_size = (C : Int) → s.cache.length ≤ C →
      (s.cache.map Prod.fst).Nodup →
      ∃ s', runPredicts md5 model s ops = some s' ∧
        s'.cache_size = (C : Int) ∧ s'.cache.length ≤ C ∧
        (s'.cache.map Prod.fst).Nodup := by
  intro ops
  induction ops with
  | nil => exact fun s hsz hlen hnd => ⟨s, rfl, hsz, hlen, hnd⟩
  | cons f fs ih =>
    intro s hsz hlen hnd
    obtain ⟨r, s1, hp, hsz1, hlen1, hnd1⟩ :=
      predict_inv md5 model C hC s hsz hlen hnd f
    obtain ⟨s', hrun, hinv⟩ := ih s1 hsz1 hlen1 hnd1
    refine ⟨s', ?_, hinv⟩
    simp only [runPredicts, hp]
    exact hrun

theorem runPredicts_counters {V R : Type} [LinearOrder V] [ToString V]
    (md5 : String → String) (model : List (String × V) → R) :
    ∀ (ops : List (List (String × V))) (s s' : CachingLayer R),
      runPredicts md5 model s ops = some s' →
      s'.hits + s'.misses = s.hits + s.misses + ops.length := by
  intro ops
  induction ops with
  | nil =>
    intro s s' h
    simp only [runPredicts, Option.some.injEq] at h
    subst h
    simp
  | cons f fs ih =>
    intro s s' h
    simp only [runPredicts] at h
    rcases hp : s.predict md5 model f with _ | ⟨r, s1⟩
    · rw [hp] at h; exact absurd h (by simp)
    · rw [hp] at h
      have h1 := predict_effects md5 model s f r s1 hp
      have h2 := ih s1 s' h
      simp only [List.length_cons]
      omega

theorem runPredicts_window {V R : Type} [LinearOrder V] [ToString V]
    (md5 : String → String) (model : List (String × V) → R)
    (C : Nat) (hC : 1 ≤ C) :
    ∀ (ops : List (List (String × V))) (s : CachingLayer R),
      s.cache_size = (C : Int) → s.cache.length ≤ C →
      (s.cache.map Prod.fst).Nodup →
      ∃ s' E, runPredicts md5 model s ops = some s' ∧
        insertionTrace md5 model s ops = some E ∧
        s'.cache.map Prod.fst =
          (s.cache.map Prod.fst ++ E).drop (s.cache.length + E.length - C) := by
  intro ops
  induction ops with
  | nil =>
    intro s hsz hlen hnd
    refine ⟨s, [], rfl, rfl, ?_⟩
    simp [Nat.sub_eq_zero_of_le hlen]
  | cons f fs ih =>
    intro s hsz hlen hnd
    rcases hl : lookupKey (hashFeatures md5 f) s.cache with _ | r0
    · -- miss: a new insertion event is recorded
      have hnotin : hashFeatures md5 f ∉ s.cache.map Prod.fst :=
        lookupKey_eq_none.mp hl
      by_cases hge : (s.cache.length : Int) ≥ s.cache_size
      · have hlenC : s.cache.length = C := by
          have h1 : (C : Int) ≤ (s.cache.length : Int) := by
            rw [← hsz]; exact hge
          omega
        obtain ⟨p, rest, hc⟩ : ∃ p rest, s.cache = p :: rest := by
          cases hcc : s.cache with
          | nil => rw [hcc] at hlenC; simp at hlenC; omega
          | cons p rest => exact ⟨p, rest, rfl⟩
        have hp := predict_miss_evict md5 model s f p rest hl hge hc
        have hrest : rest.length + 1 = C := by
          rw [hc] at hlenC; simpa using hlenC
        have hnd1 : ((rest ++
            [(hashFeatures md5 f, model f)]).map Prod.fst).Nodup := by
          rw [hc] at hnd hnotin
          simp only [List.map_cons, List.nodup_cons] at hnd
          simp only [List.map_cons, List.mem_cons, not_or] at hnotin
          simp only [List.map_append, List.map_cons, List.map_nil,
            List.nodup_append, List.nodup_cons, List.nodup_nil, List.Disjoint]
          refine ⟨hnd.2, by simp, ?_⟩
          intro a ha hb
          simp only [List.mem_singleton] at hb
          subst hb
          exact hnotin.2 ha
        obtain ⟨s', E, hrun, htr, hkeys⟩ := ih
          { s with misses := s.misses + 1,
                   cache := rest ++ [(hashFeatures md5 f, model f)] }
          (by simpa using hsz)
          (by simp only [List.length_append, List.length_cons,
                List.length_nil]; omega)
          (by simpa using hnd1)
        refine ⟨s', hashFeatures md5 f :: E, ?_, ?_, ?_⟩
        · simp only [runPredicts, hp]
          exact hrun
        · simp only [insertionTrace, hp, htr, Option.map_some', hl,
            Option.isSome_none, Bool.false_eq_true, if_false]
        · rw [hkeys]
          have hidx1 : (rest ++ [(hashFeatures md5 f, model f)]).length +
              E.length - C = E.length := by
            simp only [List.length_append, List.length_cons, List.length_nil]
            omega
          have hidx2 : s.cache.length + (hashFeatures md5 f :: E).length -
              C = E.length + 1 := by
            simp only [List.length_cons]; omega
          rw [hidx1, hidx2, hc]
          simp [List.append_assoc]
      · have hp := predict_miss_noevict md5 model s f hl hge
        have hlt : s.cache.length < C := by
          have h1 : ¬ ((C : Int) ≤ (s.cache.length : Int)) := by
            rw [← hsz]; exact hge
          omega
        have hnd1 : ((s.cache ++
            [(hashFeatures md5 f, model f)]).map Prod.fst).Nodup := by
          simp only [List.map_append, List.map_cons, List.map_nil,
            List.nodup_append, List.nodup_cons, List.nodup_nil, List.Disjoint]
          refine ⟨hnd, by simp, ?_⟩
          intro a ha hb
          simp only [List.mem_singleton] at hb
          subst hb
          exact hnotin ha
        obtain ⟨s', E, hrun, htr, hkeys⟩ := ih
          { s with misses := s.misses + 1,
                   cache := s.cache ++ [(hashFeatures md5 f, model f)] }
          (by simpa using hsz)
          (by simp only [List.length_append, List.length_cons,
                List.length_nil]; omega)
          (by simpa using hnd1)
        refine ⟨s', hashFeatures md5 f :: E, ?_, ?_, ?_⟩
        · simp only [runPredicts, hp]
          exact hrun
        · simp only [insertionTrace, hp, htr, Option.map_some', hl,
            Option.isSome_none, Bool.false_eq_true, if_false]
        · rw [hkeys]
          have hidx1 : (s.cache ++ [(hashFeatures md5 f, model f)]).length +
              E.length - C =
              s.cache.length + (hashFeatures md5 f :: E).length - C := by
            simp only [List.length_append, List.length_cons, List.length_nil]
            omega
          rw [hidx1]
          simp [List.append_assoc]
    · -- hit: cache untouched, no insertion event, no refresh of the order
      have hp := predict_hit md5 model s f r0 hl
      obtain ⟨s', E, hrun, htr, hkeys⟩ := ih { s with hits := s.hits + 1 }
        (by simpa using hsz) (by simpa using hlen) (by simpa using hnd)
      refine ⟨s', E, ?_, ?_, ?_⟩
      · simp only [runPredicts, hp]
        exact hrun
      · simp only [insertionTrace, hp, htr, Option.map_some', hl,
          Option.isSome_some, if_true]
      · exact hkeys

theorem should_scale_step (s : AutoScaler) (m : List (String × ℚ))
    (h1 : s.min_instances ≤ s.current_instances)
    (h2 : s.current_instances ≤ s.max_instances) :
    (s.should_scale m).2.min_instances = s.min_instances ∧
    (s.should_scale m).2.max_instances = s.max_instances ∧
    s.min_instances ≤ (s.should_scale m).2.current_instances ∧
    (s.should_scale m).2.current_instances ≤ s.max_instances := by
  simp only [AutoScaler.should_scale]
  split
  · split
    · exact ⟨rfl, rfl, le_min (by omega) (h1.trans h2), min_le_right _ _⟩
    · exact ⟨rfl, rfl, h1, h2⟩
  · split
    · split
      · exact ⟨rfl, rfl, le_max_right _ _, max_le (by omega) (h1.trans h2)⟩
      · exact ⟨rfl, rfl, h1, h2⟩
    · exact ⟨rfl, rfl, h1, h2⟩

theorem runScale_bounds :
    ∀ (ms : List (List (String × ℚ))) (s : AutoScaler),
      s.min_instances ≤ s.current_instances →
      s.current_instances ≤ s.max_instances →
      (runScale s ms).min_instances = s.min_instances ∧
      (runScale s ms).max_instances = s.max_instances ∧
      s.min_instances ≤ (runScale s ms).current_instances ∧
      (runScale s ms).current_instances ≤ s.max_instances := by
  intro ms
  induction ms with
  | nil => exact fun s h1 h2 => ⟨rfl, rfl, h1, h2⟩
  | cons m ms ih =>
    intro s h1 h2
    obtain ⟨e1, e2, b1, b2⟩ := should_scale_step s m h1 h2
    obtain ⟨f1, f2, c1, c2⟩ := ih (s.should_scale m).2
      (by rw [e1]; exact b1) (by rw [e2]; exact b2)
    exact ⟨by simpa [runScale, e1] using f1,
           by simpa [runScale, e2] using f2,
           by simpa [runScale, e1] using c1,
           by simpa [runScale, e2] using c2⟩

theorem insertionSort_perm_eq {V : Type} [LinearOrder V]
    {f1 f2 : List (String × V)} (h : f1.Perm f2) :
    List.insertionSort itemLe f1 = List.insertionSort itemLe f2 :=
  List.eq_of_perm_of_sorted
    ((List.perm_insertionSort itemLe f1).trans
      (h.trans (List.perm_insertionSort itemLe f2).symm))
    (List.sorted_insertionSort itemLe f1)
    (List.sorted_insertionSort itemLe f2)

/-- **C10**: on a cache hit (the fingerprint of the features is bound in
the cache), `CachingLayer.predict` returns the stored result, increments
only the hit counter by one, and leaves everything else unchanged — the
cache contents and their insertion order, the miss counter and the
capacity are untouched, and since `model` is universally quantified and
absent from the right-hand side, the backend model is not invoked at
all. -/
theorem spec_c10_hit_frame (V R : Type) [LinearOrder V] [ToString V]
    (md5 : String → String) (model : List (String × V) → R)
    (s : CachingLayer R) (f : List (String × V)) (r : R)
    (h : lookupKey (hashFeatures md5 f) s.cache = some r) :
    s.predict md5 model f = some (r, { s with hits := s.hits + 1 }) :=
  predict_hit md5 model s f r h

theorem spec_c10_hit_frame_witness :
    lookupKey (hashFeatures (fun _ => "k") [("x", (1 : Nat))])
        ([("k", 42)] : List (String × Nat)) = some 42 ∧
    CachingLayer.predict (fun _ => "k") (fun _ => 0)
        (⟨[("k", 42)], 5, 0, 1⟩ : CachingLayer Nat) [("x", 1)] =
      some (42, (⟨[("k", 42)], 5, 1, 1⟩ : CachingLayer Nat)) :=
  ⟨by decide, spec_c10_hit_frame Nat Nat (fun _ => "k") (fun _ => 0)
    ⟨[("k", 42)], 5, 0, 1⟩ [("x", 1)] 42 (by decide)⟩

/-- **C6**: the fingerprint is deterministic and order-independent over
the feature mapping's key set: two feature dicts holding the same
key-value pairs, in whatever insertion order (i.e. lists of items that
are permutations of each other), hash to the identical fingerprint,
because `_hash_features` sorts the items before serializing and
digesting. -/
theorem spec_c6_fingerprint_order_independent (V : Type) [LinearOrder V]
    [ToString V] (md5 : String → String) (f1 f2 : List (String × V))
    (h : f1.Perm f2) :
    hashFeatures md5 f1 = hashFeatures md5 f2 := by
  unfold hashFeatures
  rw [insertionSort_perm_eq h]

theorem spec_c6_fingerprint_order_independent_witness :
    ([("b", 2), ("a", 1)] : List (String × Nat)).Perm [("a", 1), ("b", 2)] ∧
    hashFeatures id ([("b", 2), ("a", 1)] : List (String × Nat)) =
      hashFeatures id [("a", 1), ("b", 2)] :=
  ⟨by decide, spec_c6_fingerprint_order_independent Nat id
    [("b", 2), ("a", 1)] [("a", 1), ("b", 2)] (by decide)⟩

/-- **C2**: from a freshly constructed `CachingLayer` with positive
capacity `C`, every sequence of `predict` calls succeeds and reaches a
state whose cache holds at most `C` entries and whose fingerprints are
pairwise distinct (each fingerprint maps to at most one live entry). -/
theorem spec_c2_cache_invariant (V R : Type) [LinearOrder V] [ToString V]
    (md5 : String → String) (model : List (String × V) → R)
    (C : Nat) (ops : List (List (String × V))) (hC : 1 ≤ C) :
    (runPredicts md5 model (CachingLayer.init (C : Int)) ops).isSome = true ∧
    ((runPredicts md5 model (CachingLayer.init (C : Int)) ops).map
      (fun t => t.cache.length)).getD 0 ≤ C ∧
    (((runPredicts md5 model (CachingLayer.init (C : Int)) ops).map
      (fun t => t.cache.map Prod.fst)).getD []).Nodup := by
  obtain ⟨s', hrun, hsz, hlen, hnd⟩ :=
    runPredicts_inv md5 model C hC ops (CachingLayer.init (C : Int))
      rfl (by simp [CachingLayer.init]) (by simp [CachingLayer.init])
  rw [hrun]
  exact ⟨rfl, by simpa using hlen, by simpa using hnd⟩

theorem spec_c2_cache_invariant_witness :
    1 ≤ 2 ∧
    ((runPredicts id (fun _ => (0 : Nat)) (CachingLayer.init ((2 : Nat) : Int))
        [[("a", (1 : Nat))], [("b", 2)], [("a", 1)], [("c", 3)]]).isSome = true ∧
     ((runPredicts id (fun _ => (0 : Nat)) (CachingLayer.init ((2 : Nat) : Int))
        [[("a", (1 : Nat))], [("b", 2)], [("a", 1)], [("c", 3)]]).map
        (fun t => t.cache.length)).getD 0 ≤ 2 ∧
     (((runPredicts id (fun _ => (0 : Nat)) (CachingLayer.init ((2 : Nat) : Int))
        [[("a", (1 : Nat))], [("b", 2)], [("a", 1)], [("c", 3)]]).map
        (fun t => t.cache.map Prod.fst)).getD []).Nodup) :=
  ⟨by decide, spec_c2_cache_invariant Nat Nat id (fun _ => 0) 2
    [[("a", 1)], [("b", 2)], [("a", 1)], [("c", 3)]] (by decide)⟩

/-- **C8**: after any successful sequence of lookups (`predict` calls),
`get_cache_stats` reports `hit_rate = hits / (hits + misses)` whenever at
least one lookup has occurred, and exactly `0` when no lookup has
occurred; the total number of lookups equals `hits + misses`, and the
division is guarded, never a division error. -/
theorem spec_c8_hit_rate (V R : Type) [LinearOrder V] [ToString V]
    (md5 : String → String) (model : List (String × V) → R)
    (C : Int) (ops : List (List (String × V))) (s' : CachingLayer R)
    (h : runPredicts md5 model (CachingLayer.init C) ops = some s') :
    s'.get_cache_stats.hit_rate =
      if 0 < ops.length then
        (s'.hits : ℚ) / ((s'.hits : ℚ) + (s'.misses : ℚ))
      else 0 := by
  have hcount := runPredicts_counters md5 model ops (CachingLayer.init C) s' h
  simp only [CachingLayer.init] at hcount
  have hcount' : s'.hits + s'.misses = ops.length := by omega
  unfold CachingLayer.get_cache_stats
  dsimp only
  rw [hcount']
  by_cases hlen : 0 < ops.length
  · rw [if_pos hlen, if_pos hlen]
    congr 1
    rw [← hcount']
    push_cast
    ring
  · rw [if_neg hlen, if_neg hlen]

theorem spec_c8_hit_rate_witness :
    runPredicts (fun _ => "h") (fun _ => (0 : Nat)) (CachingLayer.init 10)
        [[("x", (1 : Nat))], [("x", 1)]] =
      some (⟨[("h", 0)], 10, 1, 1⟩ : CachingLayer Nat) ∧
    (CachingLayer.get_cache_stats
        (⟨[("h", 0)], 10, 1, 1⟩ : CachingLayer Nat)).hit_rate =
      if 0 < ([[("x", (1 : Nat))], [("x", 1)]] :
          List (List (String × Nat))).length then
        ((1 : Nat) : ℚ) / (((1 : Nat) : ℚ) + ((1 : Nat) : ℚ))
      else 0 :=
  ⟨by decide, spec_c8_hit_rate Nat Nat (fun _ => "h") (fun _ => 0) 10
    [[("x", 1)], [("x", 1)]] ⟨[("h", 0)], 10, 1, 1⟩ (by decide)⟩

/-- **C1**: FIFO eviction, for arbitrary traces.  First and second
conjuncts: for every capacity `C ≥ 1` and *every* sequence of `predict`
calls — repeated keys, hits interleaved with insertions and re-insertion
of evicted keys all allowed — the run succeeds and the cache holds
exactly the last `C` entries of the run's insertion-event trace, in
insertion order: once the number of insertion events exceeds `C`, exactly
the `C` most-recently-inserted keys remain (necessarily distinct, since
the window coincides with the `Nodup` cache keys).  Hits add nothing to
the trace and never refresh an entry's eviction position, so the window
is ordered by insertion alone — FIFO, not LRU (under LRU the cache
contents would not be a function of the insertion events).  Remaining
conjuncts, capacity 2 concretely: after inserting `a`, `b`, `c` a lookup
of `a` misses (0 hits, 4 misses) while lookups of `b` and `c` hit
(2 hits, 3 misses); and on the hit-interleaved trace `a, b, hit-a, c` the
intervening hit does not protect `a` — the oldest-inserted key — from
eviction, so a final lookup of `a` misses again (1 hit, 4 misses),
whereas an LRU cache would have evicted `b` and kept `a`. -/
theorem spec_c1_fifo (V R : Type) [LinearOrder V] [ToString V]
    (md5 : String → String) (model : List (String × V) → R)
    (C : Nat) (ops : List (List (String × V))) (hC : 1 ≤ C) :
    (runPredicts md5 model (CachingLayer.init (C : Int)) ops).isSome = true ∧
    runCacheKeys md5 model (CachingLayer.init (C : Int)) ops =
      (insertionTrace md5 model (CachingLayer.init (C : Int)) ops).map
        (fun E => E.drop (E.length - C)) ∧
    ((runPredicts id (fun _ => (0 : Nat)) (CachingLayer.init 2)
        [[("a", (1 : Nat))], [("b", 2)], [("c", 3)], [("a", 1)]]).map
        (fun t => (t.hits, t.misses)) = some (0, 4)) ∧
    ((runPredicts id (fun _ => (0 : Nat)) (CachingLayer.init 2)
        [[("a", (1 : Nat))], [("b", 2)], [("c", 3)], [("b", 2)], [("c", 3)]]).map
        (fun t => (t.hits, t.misses)) = some (2, 3)) ∧
    ((runPredicts id (fun _ => (0 : Nat)) (CachingLayer.init 2)
        [[("a", (1 : Nat))], [("b", 2)], [("a", 1)], [("c", 3)], [("a", 1)]]).map
        (fun t => (t.hits, t.misses)) = some (1, 4)) := by
  obtain ⟨s', E, hrun, htr, hkeys⟩ := runPredicts_window md5 model C hC ops
    (CachingLayer.init (C : Int)) rfl (by simp [CachingLayer.init])
    (by simp [CachingLayer.init])
  refine ⟨by rw [hrun]; rfl, ?_, by decide, by decide, by decide⟩
  unfold runCacheKeys
  rw [hrun, htr]
  simp only [Option.map_some']
  rw [hkeys]
  simp [CachingLayer.init]

theorem spec_c1_fifo_witness :
    1 ≤ 2 ∧
    ((runPredicts id (fun _ => (0 : Nat)) (CachingLayer.init ((2 : Nat) : Int))
        [[("a", (1 : Nat))], [("b", 2)], [("a", 1)], [("c", 3)],
         [("a", 1)]]).isSome = true ∧
     runCacheKeys id (fun _ => (0 : Nat)) (CachingLayer.init ((2 : Nat) : Int))
        [[("a", (1 : Nat))], [("b", 2)], [("a", 1)], [("c", 3)], [("a", 1)]] =
      (insertionTrace id (fun _ => (0 : Nat))
          (CachingLayer.init ((2 : Nat) : Int))
          [[("a", (1 : Nat))], [("b", 2)], [("a", 1)], [("c", 3)],
           [("a", 1)]]).map (fun E => E.drop (E.length - 2))) :=
  ⟨by decide,
   (spec_c1_fifo Nat Nat id (fun _ => 0) 2
     [[("a", 1)], [("b", 2)], [("a", 1)], [("c", 3)], [("a", 1)]]
     (by decide)).1,
   (spec_c1_fifo Nat Nat id (fun _ => 0) 2
     [[("a", 1)], [("b", 2)], [("a", 1)], [("c", 3)], [("a", 1)]]
     (by decide)).2.1⟩

/-- **C4**: for every `AutoScaler` constructed with
`min_instances ≤ max_instances` and every sequence of `should_scale`
calls with arbitrary metrics, `current_instances` stays within
`[min_instances, max_instances]`. -/
theorem spec_c4_bounds (mi ma : Int) (tc up dn : ℚ)
    (ms : List (List (String × ℚ))) (h : mi ≤ ma) :
    mi ≤ (runScale (AutoScaler.init mi ma tc up dn) ms).current_instances ∧
    (runScale (AutoScaler.init mi ma tc up dn) ms).current_instances ≤ ma := by
  obtain ⟨-, -, b1, b2⟩ := runScale_bounds ms (AutoScaler.init mi ma tc up dn)
    (le_refl _) h
  exact ⟨b1, b2⟩

theorem spec_c4_bounds_witness :
    (1 : Int) ≤ 3 ∧
    (1 ≤ (runScale (AutoScaler.init 1 3 (7/10) (4/5) (1/2))
        [[("cpu_usage", (9 : ℚ)/10)], [("cpu_usage", 9/10)],
         [("cpu_usage", 9/10)], [("cpu_usage", 9/10)]]).current_instances ∧
     (runScale (AutoScaler.init 1 3 (7/10) (4/5) (1/2))
        [[("cpu_usage", (9 : ℚ)/10)], [("cpu_usage", 9/10)],
         [("cpu_usage", 9/10)], [("cpu_usage", 9/10)]]).current_instances ≤ 3) :=
  ⟨by decide, spec_c4_bounds 1 3 (7/10) (4/5) (1/2)
    [[("cpu_usage", 9/10)], [("cpu_usage", 9/10)],
     [("cpu_usage", 9/10)], [("cpu_usage", 9/10)]] (by decide)⟩

/-- **C7**: an `AutoScaler` with `min_instances = 1`, `max_instances = 5`
(and the default thresholds), fed the metrics
`{cpu_usage: 0.9, request_rate: 150, avg_latency_ms: 1200}` five times in
a row, moves through instance counts `2, 3, 4, 5, 5` — clamped at the
maximum on the fifth call, whose returned decision is `0`. -/
theorem spec_c7_scale_sequence :
    (let m : List (String × ℚ) :=
      [("cpu_usage", 9/10), ("request_rate", 150), ("avg_latency_ms", 1200)]
     let s0 := AutoScaler.init 1 5 (7/10) (4/5) (1/2)
     let r1 := s0.should_scale m
     let r2 := r1.2.should_scale m
     let r3 := r2.2.should_scale m
     let r4 := r3.2.should_scale m
     let r5 := r4.2.should_scale m
     r1.2.current_instances = 2 ∧ r1.1 = 1 ∧
     r2.2.current_instances = 3 ∧ r2.1 = 1 ∧
     r3.2.current_instances = 4 ∧ r3.1 = 1 ∧
     r4.2.current_instances = 5 ∧ r4.1 = 1 ∧
     r5.2.current_instances = 5 ∧ r5.1 = 0) := by
  norm_num [AutoScaler.should_scale, AutoScaler.init, dictGet, lookupKey]

theorem pySliceTake_length_le {F : Type} (l : List F) (n : Int) (hn : 0 ≤ n) :
    ((pySliceTake l n).length : Int) ≤ n := by
  unfold pySliceTake
  rw [if_pos hn]
  have h1 : (l.take n.toNat).length ≤ n.toNat := by
    simp [List.length_take]
  omega

/-- **C3 (counterexample)**: the claim ties the time-based flush to
`opened_at`, the admission time of the first item of the current batch.
The code instead compares against `last_batch_time`, the time of the last
flush or of construction.  Concretely: a `BatchProcessor` with
`batch_size = 3` and `max_wait_time = 10`, constructed at time `0`,
receives its first item at time `20`.  The code flushes immediately (a
batch of one item), while the claim's predicate — queue length `1` has
not reached `3`, and `now - opened_at = 20 - 20 = 0 < 10` — says no flush
occurs. -/
theorem spec_c3_counterexample :
    ((BatchProcessor.init 3 10 0 : BatchProcessor Nat).add_request 20 7).2 =
      some [7] ∧
    ¬ specShouldFlush 1 3 20 20 10 := by
  constructor
  · norm_num [BatchProcessor.add_request, BatchProcessor.process_batch,
      BatchProcessor.init, pySliceTake]
  · norm_num [specShouldFlush]

/-- **C3 (amended)**: at every admission, a flush occurs exactly when,
after appending the item, the queue length has reached `batch_size` or
the time elapsed since the last flush (or since construction, if no flush
has happened yet — `last_batch_time`, not the claim's `opened_at`) is at
least `max_wait_time`; the flushed batch contains at most `batch_size`
items.  The check is synchronous, inside `add_request` itself. -/
theorem spec_c3_amended (F : Type) (s : BatchProcessor F) (f : F) (now : ℚ)
    (hbs : 1 ≤ s.batch_size) :
    (s.add_request now f).2.isSome =
      (decide ((s.batch_queue.length + 1 : Int) ≥ s.batch_size) ||
       decide (now - s.last_batch_time ≥ s.max_wait_time)) ∧
    (((s.add_request now f).2.getD []).length : Int) ≤ s.batch_size := by
  unfold BatchProcessor.add_request
  dsimp only
  have hlen : ((s.batch_queue ++ [f]).length : Int) =
      (s.batch_queue.length + 1 : Int) := by
    simp
  by_cases hcond : ((s.batch_queue ++ [f]).length : Int) ≥ s.batch_size ∨
      now - s.last_batch_time ≥ s.max_wait_time
  · rw [if_pos hcond]
    have hne : (s.batch_queue ++ [f]).isEmpty = false := by simp
    unfold BatchProcessor.process_batch
    dsimp only
    rw [hne]
    simp only [Bool.false_eq_true, if_false, Option.isSome_some,
      Option.getD_some]
    constructor
    · rcases hcond with h | h
      · rw [hlen] at h
        simp [h]
      · simp [h]
    · exact pySliceTake_length_le _ _ (by omega)
  · rw [if_neg hcond]
    rw [not_or] at hcond
    obtain ⟨h1, h2⟩ := hcond
    rw [hlen] at h1
    simp only [Option.isSome_none, Option.getD_none, List.length_nil]
    refine ⟨by simp [h1, h2], by omega⟩

theorem spec_c3_amended_witness :
    (1 : Int) ≤ (BatchProcessor.init 1 10 0 : BatchProcessor Nat).batch_size ∧
    (((BatchProcessor.init 1 10 0 : BatchProcessor Nat).add_request 0 7).2.isSome =
      (decide (((BatchProcessor.init 1 10 0 :
          BatchProcessor Nat).batch_queue.length + 1 : Int) ≥
        (BatchProcessor.init 1 10 0 : BatchProcessor Nat).batch_size) ||
       decide ((0 : ℚ) -
          (BatchProcessor.init 1 10 0 : BatchProcessor Nat).last_batch_time ≥
        (BatchProcessor.init 1 10 0 : BatchProcessor Nat).max_wait_time)) ∧
     ((((BatchProcessor.init 1 10 0 :
          BatchProcessor Nat).add_request 0 7).2.getD []).length : Int) ≤
       (BatchProcessor.init 1 10 0 : BatchProcessor Nat).batch_size) :=
  ⟨by decide,
   spec_c3_amended Nat (BatchProcessor.init 1 10 0) 7 0 (by decide)⟩

/-- **C5 (counterexample)**: the claim says construction fails fast with
an `InvalidConfiguration` error exactly on a non-positive batch size, a
non-positive cache capacity, or `min_instances > max_instances`.  The
source constructors perform no validation at all: a `CachingLayer` with
capacity `0`, a `BatchProcessor` with batch size `0` and an `AutoScaler`
with `min_instances = 5 > 1 = max_instances` are all constructed
normally, while the spec-modelled checked constructors reject each of
these configurations. -/
theorem spec_c5_counterexample :
    checkedCachingLayerInit Nat 0 =
      Except.error ConfigError.invalidConfiguration ∧
    CachingLayer.init (R := Nat) 0 = ⟨[], 0, 0, 0⟩ ∧
    checkedBatchProcessorInit Nat 0 (1/10) 0 =
      Except.error ConfigError.invalidConfiguration ∧
    BatchProcessor.init (F := Nat) 0 (1/10) 0 = ⟨0, 1/10, [], 0⟩ ∧
    checkedAutoScalerInit 5 1 (7/10) (4/5) (1/2) =
      Except.error ConfigError.invalidConfiguration ∧
    AutoScaler.init 5 1 (7/10) (4/5) (1/2) = ⟨5, 1, 7/10, 4/5, 1/2, 5⟩ :=
  ⟨rfl, rfl, rfl, rfl, rfl, rfl⟩

/-- **C5 (amended)**: construction never fails and performs no
validation: each of the three constructors accepts arbitrary parameters —
including a non-positive batch size, a non-positive cache capacity and
`min_instances > max_instances` — and just stores them (the `AutoScaler`
starting at `current_instances = min_instances`). -/
theorem spec_c5_amended (R F : Type) (cache_size batch_size : Int)
    (max_wait_time now : ℚ) (mi ma : Int) (tc up dn : ℚ) :
    CachingLayer.init (R := R) cache_size = ⟨[], cache_size, 0, 0⟩ ∧
    BatchProcessor.init (F := F) batch_size max_wait_time now =
      ⟨batch_size, max_wait_time, [], now⟩ ∧
    AutoScaler.init mi ma tc up dn = ⟨mi, ma, tc, up, dn, mi⟩ :=
  ⟨rfl, rfl, rfl⟩

/-- **C9 (counterexample)**: the claim promises that an empty metrics
dict with `current_instances > min_instances` and
`scale_down_threshold > 0` yields decision `-1` and a decrement.  But all
absent metrics default to `0`, and with a negative `scale_up_threshold`
the scale-up rule `cpu_usage > scale_up_threshold` fires first: for the
scaler `⟨min 1, max 5, target 7/10, up -1, down 1/2, current 2⟩` the
hypotheses of the claim hold, yet `should_scale` on `{}` returns `1` and
increments the count to `3`. -/
theorem spec_c9_counterexample :
    (let s : AutoScaler := ⟨1, 5, 7/10, -1, 1/2, 2⟩
     s.min_instances < s.current_instances ∧ 0 < s.scale_down_threshold ∧
     (s.should_scale []).1 = 1 ∧
     (s.should_scale []).2.current_instances = 3) := by
  norm_num [AutoScaler.should_scale, dictGet, lookupKey]

/-- **C9 (amended)**: `should_scale` treats each of the keys `cpu_usage`,
`request_rate` and `avg_latency_ms` as `0` when absent from the metrics
dict (prepending an explicit `0` binding for an absent key does not change
the result); and a call with an empty metrics dict, when
`current_instances > min_instances`, `scale_up_threshold ≥ 0` (so that
the zero cpu reading cannot trigger the higher-priority scale-up rule)
and `scale_down_threshold > 0`, returns `-1` and decrements
`current_instances` by exactly one. -/
theorem spec_c9_amended :
    (∀ (s : AutoScaler) (m : List (String × ℚ)) (k : String),
      (k = "cpu_usage" ∨ k = "request_rate" ∨ k = "avg_latency_ms") →
      lookupKey k m = none →
      s.should_scale m = s.should_scale ((k, 0) :: m)) ∧
    (∀ s : AutoScaler,
      s.min_instances < s.current_instances →
      0 ≤ s.scale_up_threshold → 0 < s.scale_down_threshold →
      s.should_scale [] =
        (-1, { s with current_instances := s.current_instances - 1 })) := by
  constructor
  · intro s m k hk hnone
    have hget : ∀ k', dictGet ((k, 0) :: m) k' 0 = dictGet m k' 0 := by
      intro k'
      by_cases h : k' = k
      · subst h
        simp [dictGet, lookupKey, hnone]
      · simp [dictGet, lookupKey, h]
    simp only [AutoScaler.should_scale, hget]
  · intro s h1 h2 h3
    have hup : ¬ (dictGet ([] : List (String × ℚ)) "cpu_usage" 0 >
        s.scale_up_threshold ∨
        dictGet ([] : List (String × ℚ)) "avg_latency_ms" 0 > 1000 ∨
        dictGet ([] : List (String × ℚ)) "request_rate" 0 > 100) := by
      simp only [dictGet, lookupKey, Option.getD_none, not_or, not_lt]
      exact ⟨h2, by norm_num, by norm_num⟩
    have hdown : dictGet ([] : List (String × ℚ)) "cpu_usage" 0 <
        s.scale_down_threshold ∧
        dictGet ([] : List (String × ℚ)) "avg_latency_ms" 0 < 100 ∧
        dictGet ([] : List (String × ℚ)) "request_rate" 0 < 10 := by
      simp only [dictGet, lookupKey, Option.getD_none]
      exact ⟨h3, by norm_num, by norm_num⟩
    have hmax : max (s.current_instances - 1) s.min_instances =
        s.current_instances - 1 := max_eq_left (by omega)
    simp only [AutoScaler.should_scale]
    rw [if_neg hup, if_pos hdown, if_pos h1, hmax]

theorem spec_c9_amended_witness :
    (lookupKey "cpu_usage" ([("request_rate", (5 : ℚ))]) = none ∧
     AutoScaler.should_scale ⟨1, 5, 7/10, 4/5, 1/2, 3⟩
         [("request_rate", (5 : ℚ))] =
       AutoScaler.should_scale ⟨1, 5, 7/10, 4/5, 1/2, 3⟩
         [("cpu_usage", 0), ("request_rate", (5 : ℚ))]) ∧
    ((1 : Int) < 3 ∧ (0 : ℚ) ≤ 4/5 ∧ (0 : ℚ) < 1/2 ∧
     AutoScaler.should_scale ⟨1, 5, 7/10, 4/5, 1/2, 3⟩ [] =
       (-1, ⟨1, 5, 7/10, 4/5, 1/2, 2⟩)) :=
  ⟨⟨rfl, spec_c9_amended.1 ⟨1, 5, 7/10, 4/5, 1/2, 3⟩ [("request_rate", 5)]
      "cpu_usage" (Or.inl rfl) rfl⟩,
   ⟨by decide, by norm_num, by norm_num,
    spec_c9_amended.2 ⟨1, 5, 7/10, 4/5, 1/2, 3⟩ (by decide) (by norm_num)
      (by norm_num)⟩⟩

end AirBrain
